import Mathlib

/- A shallow embedding of ncnn's ROIAlign layer (`src/layer/roialign.cpp`).

   Modelling conventions:
   * C floating-point values are modelled by exact rationals `ℚ`
     (the claims under verification are stated "in exact arithmetic");
   * C `int` is modelled by `ℤ`; a C loop `for (i = 0; i < n; i++)` with an
     `int` bound `n` runs `n.toNat` times;
   * `(int)y` truncation is `Int.floor` (at its use site `y ≥ 0` always
     holds, where truncation and floor coincide); `std::ceil` is `Int.ceil`;
   * one channel of the input blob is a total function `ℤ → ℚ`; the layer
     only reads offsets that are separately proved to be in bounds;
   * the output blob is, per channel, the row-major list of cell values. -/

/-- One bilinear stencil (struct `PreCalc` of the source): four flat offsets
into a channel's row-major buffer and four interpolation weights. -/
structure PreCalc where
  pos1 : ℤ
  pos2 : ℤ
  pos3 : ℤ
  pos4 : ℤ
  w1 : ℚ
  w2 : ℚ
  w3 : ℚ
  w4 : ℚ
deriving DecidableEq

/-- The all-zero sentinel stencil written on the `empty` path (lines 69-78). -/
def emptyPreCalc : PreCalc := ⟨0, 0, 0, 0, 0, 0, 0, 0⟩

/-- The out-of-feature-map test of line 67:
`y < -1.0 || y > height || x < -1.0 || x > width`. -/
def outOfRange (height width : ℤ) (y x : ℚ) : Prop :=
  y < -1 ∨ (height : ℚ) < y ∨ x < -1 ∨ (width : ℚ) < x

instance (height width : ℤ) (y x : ℚ) : Decidable (outOfRange height width y x) := by
  unfold outOfRange
  infer_instance

/-- The clamp of lines 83-88: `if (y <= 0) y = 0;`. -/
def clamp0 (t : ℚ) : ℚ := if t ≤ 0 then 0 else t

/-- The low grid index of lines 90-107: `y_low = (int)y`, then clamped to
`size - 1` when `y_low >= size - 1`.  The argument `t` is non-negative at
every use site, so C truncation is `Int.floor`. -/
def gridLow (size : ℤ) (t : ℚ) : ℤ :=
  if size - 1 ≤ ⌊t⌋ then size - 1 else ⌊t⌋

/-- The high grid index of lines 90-107: `size - 1` on the clamped branch,
`y_low + 1` otherwise. -/
def gridHigh (size : ℤ) (t : ℚ) : ℤ :=
  if size - 1 ≤ ⌊t⌋ then size - 1 else ⌊t⌋ + 1

/-- The possibly snapped coordinate of lines 95-107: on the clamped branch
the source also snaps `y = (T)y_low`. -/
def gridSnap (size : ℤ) (t : ℚ) : ℚ :=
  if size - 1 ≤ ⌊t⌋ then ((size - 1 : ℤ) : ℚ) else t

/-- The fractional offset `ly = y - y_low` of line 109 (resp. `lx`, line 110),
computed from the snapped coordinate and the clamped low index. -/
def fracLow (size : ℤ) (t : ℚ) : ℚ :=
  gridSnap size t - ((gridLow size t : ℤ) : ℚ)

/-- Lines 64-124 of the source: the stencil emitted for one continuous sample
coordinate `(yy, xx)`.  Out-of-range samples get the all-zero sentinel;
otherwise the coordinate is clamped to `≥ 0`, the surrounding grid indices
are computed and clamped to the feature map, and the four bilinear weights
`w1 = hy*hx, w2 = hy*lx, w3 = ly*hx, w4 = ly*lx` are attached to the four
flat offsets `low/high * width + low/high`. -/
def bilinearStencil (height width : ℤ) (yy xx : ℚ) : PreCalc :=
  if outOfRange height width yy xx then
    emptyPreCalc
  else
    { pos1 := gridLow height (clamp0 yy) * width + gridLow width (clamp0 xx)
      pos2 := gridLow height (clamp0 yy) * width + gridHigh width (clamp0 xx)
      pos3 := gridHigh height (clamp0 yy) * width + gridLow width (clamp0 xx)
      pos4 := gridHigh height (clamp0 yy) * width + gridHigh width (clamp0 xx)
      w1 := (1 - fracLow height (clamp0 yy)) * (1 - fracLow width (clamp0 xx))
      w2 := (1 - fracLow height (clamp0 yy)) * fracLow width (clamp0 xx)
      w3 := fracLow height (clamp0 yy) * (1 - fracLow width (clamp0 xx))
      w4 := fracLow height (clamp0 yy) * fracLow width (clamp0 xx) }

/-- The continuous sample row coordinate of lines 56-58:
`yy = roi_start_h + ph * bin_size_h + (iy + 0.5) * bin_size_h / roi_bin_grid_h`. -/
def sampleY (roi_start_h bin_size_h : ℚ) (roi_bin_grid_h : ℤ) (ph iy : ℕ) : ℚ :=
  roi_start_h + (ph : ℚ) * bin_size_h +
    ((iy : ℚ) + 1/2) * bin_size_h / ((roi_bin_grid_h : ℤ) : ℚ)

/-- The continuous sample column coordinate of lines 60-62. -/
def sampleX (roi_start_w bin_size_w : ℚ) (roi_bin_grid_w : ℤ) (pw ix : ℕ) : ℚ :=
  roi_start_w + (pw : ℚ) * bin_size_w +
    ((ix : ℚ) + 1/2) * bin_size_w / ((roi_bin_grid_w : ℤ) : ℚ)

/-- Lines 37-131 of the source: the sampling-plan builder.  The nested loops
`ph, pw, iy, ix` write stencils through a cursor that starts at `0` and
advances by one per emitted stencil, so the resulting buffer is exactly the
row-major concatenation below. -/
def pre_calc_for_bilinear_interpolate
    (height width pooled_height pooled_width iy_upper ix_upper : ℤ)
    (roi_start_h roi_start_w bin_size_h bin_size_w : ℚ)
    (roi_bin_grid_h roi_bin_grid_w : ℤ) : List PreCalc :=
  (List.range pooled_height.toNat).flatMap fun ph =>
    (List.range pooled_width.toNat).flatMap fun pw =>
      (List.range iy_upper.toNat).flatMap fun iy =>
        (List.range ix_upper.toNat).map fun ix =>
          bilinearStencil height width
            (sampleY roi_start_h bin_size_h roi_bin_grid_h ph iy)
            (sampleX roi_start_w bin_size_w roi_bin_grid_w pw ix)

/-- One sample's contribution (lines 227-229):
`w1*ptr[pos1] + w2*ptr[pos2] + w3*ptr[pos3] + w4*ptr[pos4]`. -/
def stencilContrib (v : ℤ → ℚ) (pc : PreCalc) : ℚ :=
  pc.w1 * v pc.pos1 + pc.w2 * v pc.pos2 + pc.w3 * v pc.pos3 + pc.w4 * v pc.pos4

/-- The innermost reduction loop (lines 223-232): `n` remaining iterations,
current cursor into `pre`, accumulator; returns the accumulator and cursor
after the loop. -/
def ixLoop (v : ℤ → ℚ) (pre : List PreCalc) : ℕ → ℕ → ℚ → ℚ × ℕ
  | 0, cursor, acc => (acc, cursor)
  | n + 1, cursor, acc =>
      ixLoop v pre n (cursor + 1) (acc + stencilContrib v (pre.getD cursor emptyPreCalc))

/-- The `iy` reduction loop (lines 221-233), running the `ix` loop `gw` times
per iteration and threading the cursor. -/
def iyLoop (v : ℤ → ℚ) (pre : List PreCalc) (gw : ℕ) : ℕ → ℕ → ℚ → ℚ × ℕ
  | 0, cursor, acc => (acc, cursor)
  | n + 1, cursor, acc =>
      iyLoop v pre gw n (ixLoop v pre gw cursor acc).2 (ixLoop v pre gw cursor acc).1

/-- The `pw` loop of one output row (lines 218-236): each iteration starts its
accumulator at `0`, runs the sample loops, divides by `count` and stores the
cell; returns the row (in `pw` order) and the cursor after the row. -/
def pwLoop (v : ℤ → ℚ) (pre : List PreCalc) (gh gw : ℕ) (count : ℚ) :
    ℕ → ℕ → List ℚ × ℕ
  | 0, cursor => ([], cursor)
  | n + 1, cursor =>
      ((iyLoop v pre gw gh cursor 0).1 / count
          :: (pwLoop v pre gh gw count n (iyLoop v pre gw gh cursor 0).2).1,
       (pwLoop v pre gh gw count n (iyLoop v pre gw gh cursor 0).2).2)

/-- The `ph` loop (lines 216-238): rows are laid out one after another
(row-major, `outptr += pooled_width`). -/
def phLoop (v : ℤ → ℚ) (pre : List PreCalc) (pwCount gh gw : ℕ) (count : ℚ) :
    ℕ → ℕ → List ℚ × ℕ
  | 0, cursor => ([], cursor)
  | n + 1, cursor =>
      ((pwLoop v pre gh gw count pwCount cursor).1
          ++ (phLoop v pre pwCount gh gw count n
                (pwLoop v pre gh gw count pwCount cursor).2).1,
       (phLoop v pre pwCount gh gw count n
          (pwLoop v pre gh gw count pwCount cursor).2).2)

/-- One channel's full pooling pass (lines 210-239): cursor starts at `0`,
output is the row-major list of `pooled_height * pooled_width` cell values. -/
def channelForward (v : ℤ → ℚ) (pre : List PreCalc) (phCount pwCount gh gw : ℕ)
    (count : ℚ) : List ℚ :=
  (phLoop v pre pwCount gh gw count phCount 0).1

/-- The layer's configuration (fields of `ROIAlign`, defaults of
`load_param`, lines 138-147). -/
structure ROIAlign where
  pooled_width : ℤ := 0
  pooled_height : ℤ := 0
  spatial_scale : ℚ := 1
  sampling_ratio : ℤ := 0
  aligned : Bool := true

/-- The quantities derived from the ROI box before stencil building
(lines 164-189). -/
@[ext]
structure DerivedROI where
  roi_start_w : ℚ
  roi_start_h : ℚ
  roi_width : ℚ
  roi_height : ℚ
  bin_size_w : ℚ
  bin_size_h : ℚ
  roi_bin_grid_h : ℤ
  roi_bin_grid_w : ℤ
  count : ℚ

/-- Lines 164-189 of `ROIAlign::forward`: scale and offset the ROI corners,
apply the legacy minimum-size clamp when not `aligned`, derive bin sizes, the
sampling grid (explicit `sampling_ratio`, or else `ceil` of the bin size) and
the averaging divisor `count = max(roi_bin_grid_h * roi_bin_grid_w, 1)`. -/
def ROIAlign.deriveROI (self : ROIAlign) (x1 y1 x2 y2 : ℚ) : DerivedROI :=
  let offset : ℚ := if self.aligned then 1/2 else 0
  let roi_start_w := x1 * self.spatial_scale - offset
  let roi_start_h := y1 * self.spatial_scale - offset
  let roi_end_w := x2 * self.spatial_scale - offset
  let roi_end_h := y2 * self.spatial_scale - offset
  let roi_width := if self.aligned then roi_end_w - roi_start_w
    else max (roi_end_w - roi_start_w) 1
  let roi_height := if self.aligned then roi_end_h - roi_start_h
    else max (roi_end_h - roi_start_h) 1
  let bin_size_w := roi_width / ((self.pooled_width : ℤ) : ℚ)
  let bin_size_h := roi_height / ((self.pooled_height : ℤ) : ℚ)
  let roi_bin_grid_h := if 0 < self.sampling_ratio then self.sampling_ratio
    else ⌈roi_height / ((self.pooled_height : ℤ) : ℚ)⌉
  let roi_bin_grid_w := if 0 < self.sampling_ratio then self.sampling_ratio
    else ⌈roi_width / ((self.pooled_width : ℤ) : ℚ)⌉
  { roi_start_w := roi_start_w
    roi_start_h := roi_start_h
    roi_width := roi_width
    roi_height := roi_height
    bin_size_w := bin_size_w
    bin_size_h := bin_size_h
    roi_bin_grid_h := roi_bin_grid_h
    roi_bin_grid_w := roi_bin_grid_w
    count := ((max (roi_bin_grid_h * roi_bin_grid_w) 1 : ℤ) : ℚ) }

/-- Modelled from the spec: `Mat::create` and `Mat::empty` (the blob
container and its allocator, lines 160-161) are external collaborators not
in this file; the spec says only that allocation failure is "reported
immediately as a distinct failure status; no partial output is produced or
exposed".  We model the success of the output-buffer allocation as a
boolean oracle supplied to `forward`. -/
def allocSucceeds (alloc_ok : Bool) : Bool := alloc_ok

/-- The stencil sequence built by `forward` (the call of lines 191-206):
`pre_calc_for_bilinear_interpolate` applied to the derived ROI quantities,
with `iy_upper = roi_bin_grid_h` and `ix_upper = roi_bin_grid_w`. -/
def ROIAlign.preCalc (self : ROIAlign) (height width : ℤ) (x1 y1 x2 y2 : ℚ) :
    List PreCalc :=
  pre_calc_for_bilinear_interpolate height width
    self.pooled_height self.pooled_width
    (self.deriveROI x1 y1 x2 y2).roi_bin_grid_h
    (self.deriveROI x1 y1 x2 y2).roi_bin_grid_w
    (self.deriveROI x1 y1 x2 y2).roi_start_h
    (self.deriveROI x1 y1 x2 y2).roi_start_w
    (self.deriveROI x1 y1 x2 y2).bin_size_h
    (self.deriveROI x1 y1 x2 y2).bin_size_w
    (self.deriveROI x1 y1 x2 y2).roi_bin_grid_h
    (self.deriveROI x1 y1 x2 y2).roi_bin_grid_w

/-- Lines 149-242, `ROIAlign::forward`.  Inputs: the feature-map dimensions,
the per-channel buffers `bottom`, the first four floats of the ROI blob, and
the allocation oracle.  Output: the C return value paired with the produced
blob (`none` on the failure path), one row-major cell list per channel. -/
def ROIAlign.forward (self : ROIAlign) (height width : ℤ) (channels : ℕ)
    (bottom : ℕ → ℤ → ℚ) (x1 y1 x2 y2 : ℚ) (alloc_ok : Bool) :
    ℤ × Option (ℕ → List ℚ) :=
  if !allocSucceeds alloc_ok then (-100, none)
  else
    (0, some fun c =>
      channelForward (bottom c) (self.preCalc height width x1 y1 x2 y2)
        self.pooled_height.toNat self.pooled_width.toNat
        (self.deriveROI x1 y1 x2 y2).roi_bin_grid_h.toNat
        (self.deriveROI x1 y1 x2 y2).roi_bin_grid_w.toNat
        (self.deriveROI x1 y1 x2 y2).count)

/-- Read output cell `(c, ph, pw)` of a `forward` result (row-major layout,
lines 235-237). -/
def getCell (r : ℤ × Option (ℕ → List ℚ)) (pooled_width : ℤ) (c ph pw : ℕ) :
    Option ℚ :=
  r.2.map fun f => (f c).getD (ph * pooled_width.toNat + pw) 0

/-- Length of output channel `c` of a `forward` result, `none` if no output
blob was produced. -/
def channelLen (r : ℤ × Option (ℕ → List ℚ)) (c : ℕ) : Option ℕ :=
  r.2.map fun f => (f c).length

/-- Specification-side description of one cell's accumulated sum: the sum,
in row-major `(iy, ix)` order, of the contributions of the
`gh * gw` consecutive stencils starting at `base`. -/
def cellSum (v : ℤ → ℚ) (pre : List PreCalc) (base gh gw : ℕ) : ℚ :=
  ∑ iy ∈ Finset.range gh, ∑ ix ∈ Finset.range gw,
    stencilContrib v (pre.getD (base + (iy * gw + ix)) emptyPreCalc)

/- ### Spec-side formulation of the derived quantities (for claim C5) -/

/-- The half-pixel offset as the spec states it: `0.5 if aligned else 0.0`. -/
def specOffset (aligned : Bool) : ℚ := if aligned then 1/2 else 0

/-- An ROI corner coordinate as the spec states it:
`roi_coord * spatial_scale - offset`. -/
def specCorner (coord scale : ℚ) (aligned : Bool) : ℚ :=
  coord * scale - specOffset aligned

/-- An ROI extent as the spec states it: opposite corner minus corner,
clamped up to a minimum of `1` exactly when `aligned` is false. -/
def specExtent (lo hi scale : ℚ) (aligned : Bool) : ℚ :=
  if aligned then specCorner hi scale aligned - specCorner lo scale aligned
  else max (specCorner hi scale aligned - specCorner lo scale aligned) 1

/-- A bin size as the spec states it: extent over pooled dimension. -/
def specBinSize (extent : ℚ) (pooled : ℤ) : ℚ := extent / ((pooled : ℤ) : ℚ)

/- ### Indexing helpers for the stencil buffer -/

lemma flatIdx_lt {i j n m : ℕ} (hi : i < n) (hj : j < m) : i * m + j < n * m := by
  calc i * m + j < i * m + m := by omega
  _ = (i + 1) * m := by ring
  _ ≤ n * m := Nat.mul_le_mul_right m hi

lemma length_flatMap_range {α : Type} (f : ℕ → List α) (n m : ℕ)
    (hf : ∀ i, i < n → (f i).length = m) :
    ((List.range n).flatMap f).length = n * m := by
  induction n with
  | zero => simp
  | succ k ih =>
      rw [List.range_succ, List.flatMap_append]
      rw [List.length_append, ih (fun i hi => hf i (by omega))]
      simp [hf k (by omega)]
      ring

lemma getD_flatMap_range {α : Type} (f : ℕ → List α) (n m : ℕ) (d : α)
    (hf : ∀ i, i < n → (f i).length = m) {i j : ℕ} (hi : i < n) (hj : j < m) :
    ((List.range n).flatMap f).getD (i * m + j) d = (f i).getD j d := by
  induction n with
  | zero => omega
  | succ k ih =>
      rw [List.range_succ, List.flatMap_append]
      by_cases hik : i < k
      · rw [List.getD_append]
        · exact ih (fun i' hi' => hf i' (by omega)) hik
        · rw [length_flatMap_range f k m (fun i' hi' => hf i' (by omega))]
          exact flatIdx_lt hik hj
      · have hik' : i = k := by omega
        subst hik'
        rw [List.getD_append_right]
        · rw [length_flatMap_range f i m (fun i' hi' => hf i' (by omega))]
          simp [Nat.add_sub_cancel_left]
        · rw [length_flatMap_range f i m (fun i' hi' => hf i' (by omega))]
          omega

lemma getD_map_range {α : Type} (g : ℕ → α) (n j : ℕ) (d : α) (hj : j < n) :
    ((List.range n).map g).getD j d = g j := by
  rw [List.getD_eq_getElem _ _ (by simpa using hj)]
  simp

lemma pre_calc_length (height width PH PW IY IX : ℤ) (rsh rsw bsh bsw : ℚ)
    (gh gw : ℤ) :
    (pre_calc_for_bilinear_interpolate height width PH PW IY IX
        rsh rsw bsh bsw gh gw).length
      = PH.toNat * (PW.toNat * (IY.toNat * IX.toNat)) := by
  unfold pre_calc_for_bilinear_interpolate
  apply length_flatMap_range
  intro ph _
  apply length_flatMap_range
  intro pw _
  apply length_flatMap_range
  intro iy _
  simp

lemma pre_calc_getD (height width PH PW IY IX : ℤ) (rsh rsw bsh bsw : ℚ)
    (gh gw : ℤ) {ph pw iy ix : ℕ} (hph : ph < PH.toNat) (hpw : pw < PW.toNat)
    (hiy : iy < IY.toNat) (hix : ix < IX.toNat) :
    (pre_calc_for_bilinear_interpolate height width PH PW IY IX
        rsh rsw bsh bsw gh gw).getD
        (((ph * PW.toNat + pw) * IY.toNat + iy) * IX.toNat + ix) emptyPreCalc
      = bilinearStencil height width (sampleY rsh bsh gh ph iy)
          (sampleX rsw bsw gw pw ix) := by
  unfold pre_calc_for_bilinear_interpolate
  have e1 : ((ph * PW.toNat + pw) * IY.toNat + iy) * IX.toNat + ix
      = ph * (PW.toNat * (IY.toNat * IX.toNat))
        + (pw * (IY.toNat * IX.toNat) + (iy * IX.toNat + ix)) := by ring
  rw [e1]
  rw [getD_flatMap_range _ PH.toNat (PW.toNat * (IY.toNat * IX.toNat)) _
    (fun i _ => by
      apply length_flatMap_range
      intro pw' _
      apply length_flatMap_range
      intro iy' _
      simp)
    hph (flatIdx_lt hpw (flatIdx_lt hiy hix))]
  rw [getD_flatMap_range _ PW.toNat (IY.toNat * IX.toNat) _
    (fun i _ => by
      apply length_flatMap_range
      intro iy' _
      simp)
    hpw (flatIdx_lt hiy hix)]
  rw [getD_flatMap_range _ IY.toNat IX.toNat _ (fun i _ => by simp) hiy hix]
  exact getD_map_range _ _ _ _ hix

/- ### The cursor-threading loops compute indexed sums -/

lemma ixLoop_eq (v : ℤ → ℚ) (pre : List PreCalc) (n : ℕ) :
    ∀ (cursor : ℕ) (acc : ℚ),
      ixLoop v pre n cursor acc
        = (acc + ∑ k ∈ Finset.range n,
            stencilContrib v (pre.getD (cursor + k) emptyPreCalc),
           cursor + n) := by
  induction n with
  | zero =>
      intro cursor acc
      simp [ixLoop]
  | succ m ih =>
      intro cursor acc
      rw [ixLoop, ih]
      rw [Prod.mk.injEq]
      constructor
      · rw [Finset.sum_range_succ']
        have h2 : ∑ k ∈ Finset.range m,
              stencilContrib v (pre.getD (cursor + 1 + k) emptyPreCalc)
            = ∑ k ∈ Finset.range m,
              stencilContrib v (pre.getD (cursor + (k + 1)) emptyPreCalc) := by
          apply Finset.sum_congr rfl
          intro k _
          have h3 : cursor + 1 + k = cursor + (k + 1) := by omega
          rw [h3]
        rw [h2]
        simp only [Nat.add_zero]
        ring
      · omega

lemma iyLoop_eq (v : ℤ → ℚ) (pre : List PreCalc) (gw : ℕ) (n : ℕ) :
    ∀ (cursor : ℕ) (acc : ℚ),
      iyLoop v pre gw n cursor acc
        = (acc + ∑ iy ∈ Finset.range n, ∑ ix ∈ Finset.range gw,
            stencilContrib v (pre.getD (cursor + (iy * gw + ix)) emptyPreCalc),
           cursor + n * gw) := by
  induction n with
  | zero =>
      intro cursor acc
      simp [iyLoop]
  | succ m ih =>
      intro cursor acc
      rw [iyLoop, ixLoop_eq, ih]
      rw [Prod.mk.injEq]
      constructor
      · rw [Finset.sum_range_succ']
        have h2 : ∑ iy ∈ Finset.range m, ∑ ix ∈ Finset.range gw,
              stencilContrib v
                (pre.getD (cursor + gw + (iy * gw + ix)) emptyPreCalc)
            = ∑ iy ∈ Finset.range m, ∑ ix ∈ Finset.range gw,
              stencilContrib v
                (pre.getD (cursor + ((iy + 1) * gw + ix)) emptyPreCalc) := by
          apply Finset.sum_congr rfl
          intro iy _
          apply Finset.sum_congr rfl
          intro ix _
          have h3 : cursor + gw + (iy * gw + ix) = cursor + ((iy + 1) * gw + ix) := by
            ring
          rw [h3]
        rw [h2]
        have h4 : ∑ ix ∈ Finset.range gw,
              stencilContrib v (pre.getD (cursor + (0 * gw + ix)) emptyPreCalc)
            = ∑ ix ∈ Finset.range gw,
              stencilContrib v (pre.getD (cursor + ix) emptyPreCalc) := by
          apply Finset.sum_congr rfl
          intro ix _
          have h5 : cursor + (0 * gw + ix) = cursor + ix := by ring
          rw [h5]
        rw [h4]
        ring
      · ring

lemma pwLoop_eq (v : ℤ → ℚ) (pre : List PreCalc) (gh gw : ℕ) (count : ℚ)
    (n : ℕ) :
    ∀ cursor : ℕ,
      pwLoop v pre gh gw count n cursor
        = ((List.range n).map (fun j =>
            cellSum v pre (cursor + j * (gh * gw)) gh gw / count),
           cursor + n * (gh * gw)) := by
  induction n with
  | zero =>
      intro cursor
      simp [pwLoop]
  | succ m ih =>
      intro cursor
      rw [pwLoop, iyLoop_eq, ih]
      rw [Prod.mk.injEq]
      constructor
      · rw [List.range_succ_eq_map, List.map_cons, List.map_map]
        congr 1
        · rw [zero_add]
          have h1 : cursor + 0 * (gh * gw) = cursor := by ring
          rw [h1]
          rfl
        · apply List.map_congr_left
          intro j _
          simp only [Function.comp_apply]
          have h2 : cursor + gh * gw + j * (gh * gw)
              = cursor + (j + 1) * (gh * gw) := by ring
          rw [h2]
      · ring

lemma phLoop_eq (v : ℤ → ℚ) (pre : List PreCalc) (pwCount gh gw : ℕ)
    (count : ℚ) (n : ℕ) :
    ∀ cursor : ℕ,
      phLoop v pre pwCount gh gw count n cursor
        = ((List.range (n * pwCount)).map (fun j =>
            cellSum v pre (cursor + j * (gh * gw)) gh gw / count),
           cursor + n * (pwCount * (gh * gw))) := by
  induction n with
  | zero =>
      intro cursor
      simp [phLoop]
  | succ m ih =>
      intro cursor
      rw [phLoop, pwLoop_eq, ih]
      rw [Prod.mk.injEq]
      constructor
      · have hsplit : (m + 1) * pwCount = pwCount + m * pwCount := by ring
        rw [hsplit, List.range_add, List.map_append, List.map_map]
        congr 1
        apply List.map_congr_left
        intro j _
        simp only [Function.comp_apply]
        have h2 : cursor + pwCount * (gh * gw) + j * (gh * gw)
            = cursor + (pwCount + j) * (gh * gw) := by ring
        rw [h2]
      · ring

lemma channelForward_eq (v : ℤ → ℚ) (pre : List PreCalc)
    (phCount pwCount gh gw : ℕ) (count : ℚ) :
    channelForward v pre phCount pwCount gh gw count
      = (List.range (phCount * pwCount)).map (fun j =>
          cellSum v pre (j * (gh * gw)) gh gw / count) := by
  unfold channelForward
  rw [phLoop_eq]
  simp only [zero_add]

lemma channelForward_length (v : ℤ → ℚ) (pre : List PreCalc)
    (phCount pwCount gh gw : ℕ) (count : ℚ) :
    (channelForward v pre phCount pwCount gh gw count).length
      = phCount * pwCount := by
  rw [channelForward_eq]
  simp

lemma channelForward_getD (v : ℤ → ℚ) (pre : List PreCalc)
    (phCount pwCount gh gw : ℕ) (count : ℚ) {ph pw : ℕ}
    (hph : ph < phCount) (hpw : pw < pwCount) :
    (channelForward v pre phCount pwCount gh gw count).getD (ph * pwCount + pw) 0
      = cellSum v pre ((ph * pwCount + pw) * (gh * gw)) gh gw / count := by
  rw [channelForward_eq]
  exact getD_map_range _ _ _ _ (flatIdx_lt hph hpw)

lemma forward_getCell (self : ROIAlign) (height width : ℤ) (channels : ℕ)
    (bottom : ℕ → ℤ → ℚ) (x1 y1 x2 y2 : ℚ) (c ph pw : ℕ)
    (hph : ph < self.pooled_height.toNat) (hpw : pw < self.pooled_width.toNat) :
    getCell (self.forward height width channels bottom x1 y1 x2 y2 true)
        self.pooled_width c ph pw
      = some (cellSum (bottom c) (self.preCalc height width x1 y1 x2 y2)
          ((ph * self.pooled_width.toNat + pw)
            * ((self.deriveROI x1 y1 x2 y2).roi_bin_grid_h.toNat
               * (self.deriveROI x1 y1 x2 y2).roi_bin_grid_w.toNat))
          (self.deriveROI x1 y1 x2 y2).roi_bin_grid_h.toNat
          (self.deriveROI x1 y1 x2 y2).roi_bin_grid_w.toNat
        / (self.deriveROI x1 y1 x2 y2).count) := by
  rw [ROIAlign.forward]
  simp only [allocSucceeds, Bool.not_true, Bool.false_eq_true, if_false, getCell,
    Option.map_some']
  rw [channelForward_getD _ _ _ _ _ _ _ hph hpw]

lemma forward_channelLen (self : ROIAlign) (height width : ℤ) (channels : ℕ)
    (bottom : ℕ → ℤ → ℚ) (x1 y1 x2 y2 : ℚ) (c : ℕ) :
    channelLen (self.forward height width channels bottom x1 y1 x2 y2 true) c
      = some (self.pooled_height.toNat * self.pooled_width.toNat) := by
  rw [ROIAlign.forward]
  simp only [allocSucceeds, Bool.not_true, Bool.false_eq_true, if_false,
    channelLen, Option.map_some']
  rw [channelForward_length]

/- ### Weight facts about a single stencil -/

lemma clamp0_nonneg (t : ℚ) : 0 ≤ clamp0 t := by
  unfold clamp0
  split
  · exact le_refl 0
  · linarith [not_le.mp (by assumption : ¬ t ≤ 0)]

lemma fracLow_nonneg (size : ℤ) (t : ℚ) : 0 ≤ fracLow size t := by
  unfold fracLow gridSnap gridLow
  split
  · simp
  · have h := Int.fract_nonneg t
    rw [Int.fract] at h
    exact h

lemma fracLow_le_one (size : ℤ) (t : ℚ) : fracLow size t ≤ 1 := by
  unfold fracLow gridSnap gridLow
  split
  · simp
  · have h := Int.fract_lt_one t
    rw [Int.fract] at h
    linarith

lemma stencilContrib_const (v : ℚ) (pc : PreCalc) :
    stencilContrib (fun _ => v) pc = (pc.w1 + pc.w2 + pc.w3 + pc.w4) * v := by
  unfold stencilContrib
  ring

lemma bilinearStencil_weight_sum (height width : ℤ) (yy xx : ℚ)
    (h : ¬ outOfRange height width yy xx) :
    (bilinearStencil height width yy xx).w1 + (bilinearStencil height width yy xx).w2
      + (bilinearStencil height width yy xx).w3
      + (bilinearStencil height width yy xx).w4 = 1 := by
  unfold bilinearStencil
  rw [if_neg h]
  dsimp only
  ring

/- ### Grid-index bounds -/

lemma gridLow_nonneg (size : ℤ) (t : ℚ) (hsize : 1 ≤ size) (ht : 0 ≤ t) :
    0 ≤ gridLow size t := by
  unfold gridLow
  split
  · omega
  · exact Int.floor_nonneg.mpr ht

lemma gridLow_le_gridHigh (size : ℤ) (t : ℚ) :
    gridLow size t ≤ gridHigh size t := by
  unfold gridLow gridHigh
  split
  · omega
  · omega

lemma gridHigh_le (size : ℤ) (t : ℚ) :
    gridHigh size t ≤ size - 1 := by
  unfold gridHigh
  split
  · omega
  · omega

lemma pos_bound {a b h w : ℤ} (ha0 : 0 ≤ a) (hah : a ≤ h - 1) (hb0 : 0 ≤ b)
    (hbw : b ≤ w - 1) (hw : 1 ≤ w) :
    0 ≤ a * w + b ∧ a * w + b < h * w := by
  constructor
  · have h1 : 0 ≤ a * w := mul_nonneg ha0 (by omega)
    omega
  · nlinarith

/- ### Projection identities for the derived ROI quantities -/

lemma deriveROI_grid_h (self : ROIAlign) (x1 y1 x2 y2 : ℚ) :
    (self.deriveROI x1 y1 x2 y2).roi_bin_grid_h
      = if 0 < self.sampling_ratio then self.sampling_ratio
        else ⌈(self.deriveROI x1 y1 x2 y2).roi_height
              / ((self.pooled_height : ℤ) : ℚ)⌉ := rfl

lemma deriveROI_grid_w (self : ROIAlign) (x1 y1 x2 y2 : ℚ) :
    (self.deriveROI x1 y1 x2 y2).roi_bin_grid_w
      = if 0 < self.sampling_ratio then self.sampling_ratio
        else ⌈(self.deriveROI x1 y1 x2 y2).roi_width
              / ((self.pooled_width : ℤ) : ℚ)⌉ := rfl

lemma deriveROI_count (self : ROIAlign) (x1 y1 x2 y2 : ℚ) :
    (self.deriveROI x1 y1 x2 y2).count
      = ((max ((self.deriveROI x1 y1 x2 y2).roi_bin_grid_h
            * (self.deriveROI x1 y1 x2 y2).roi_bin_grid_w) 1 : ℤ) : ℚ) := rfl

lemma cellSum_zero (v : ℤ → ℚ) (pre : List PreCalc) (base gh gw : ℕ)
    (h : gh = 0 ∨ gw = 0) : cellSum v pre base gh gw = 0 := by
  rcases h with h | h <;> simp [cellSum, h]

/- ### Claim theorems -/

/-- C1: for every channel `c` and output cell `(ph, pw)`, the forward pass
writes the sum, in row-major `(ph, pw, iy, ix)` order, of
`w1*v[pos1] + w2*v[pos2] + w3*v[pos3] + w4*v[pos4]` over the
`roi_bin_grid_h * roi_bin_grid_w` consecutive stencils belonging to that
cell, divided by `count = max(roi_bin_grid_h * roi_bin_grid_w, 1)`; the
only dependence on the channel is through that channel's buffer
`bottom c`, the stencil sequence being shared. -/
theorem forward_cell_value (self : ROIAlign) (height width : ℤ) (channels : ℕ)
    (bottom : ℕ → ℤ → ℚ) (x1 y1 x2 y2 : ℚ) (c ph pw : ℕ)
    (_hc : c < channels)
    (hph : ph < self.pooled_height.toNat) (hpw : pw < self.pooled_width.toNat) :
    getCell (self.forward height width channels bottom x1 y1 x2 y2 true)
        self.pooled_width c ph pw
      = some ((∑ iy ∈ Finset.range (self.deriveROI x1 y1 x2 y2).roi_bin_grid_h.toNat,
            ∑ ix ∈ Finset.range (self.deriveROI x1 y1 x2 y2).roi_bin_grid_w.toNat,
              stencilContrib (bottom c)
                ((self.preCalc height width x1 y1 x2 y2).getD
                  (((ph * self.pooled_width.toNat + pw)
                      * (self.deriveROI x1 y1 x2 y2).roi_bin_grid_h.toNat + iy)
                    * (self.deriveROI x1 y1 x2 y2).roi_bin_grid_w.toNat + ix)
                  emptyPreCalc))
          / ((max ((self.deriveROI x1 y1 x2 y2).roi_bin_grid_h
                * (self.deriveROI x1 y1 x2 y2).roi_bin_grid_w) 1 : ℤ) : ℚ)) := by
  rw [forward_getCell self height width channels bottom x1 y1 x2 y2 c ph pw hph hpw]
  rw [← deriveROI_count self x1 y1 x2 y2]
  have h2 : cellSum (bottom c) (self.preCalc height width x1 y1 x2 y2)
      ((ph * self.pooled_width.toNat + pw)
        * ((self.deriveROI x1 y1 x2 y2).roi_bin_grid_h.toNat
            * (self.deriveROI x1 y1 x2 y2).roi_bin_grid_w.toNat))
      (self.deriveROI x1 y1 x2 y2).roi_bin_grid_h.toNat
      (self.deriveROI x1 y1 x2 y2).roi_bin_grid_w.toNat
      = ∑ iy ∈ Finset.range (self.deriveROI x1 y1 x2 y2).roi_bin_grid_h.toNat,
          ∑ ix ∈ Finset.range (self.deriveROI x1 y1 x2 y2).roi_bin_grid_w.toNat,
            stencilContrib (bottom c)
              ((self.preCalc height width x1 y1 x2 y2).getD
                (((ph * self.pooled_width.toNat + pw)
                    * (self.deriveROI x1 y1 x2 y2).roi_bin_grid_h.toNat + iy)
                  * (self.deriveROI x1 y1 x2 y2).roi_bin_grid_w.toNat + ix)
                emptyPreCalc) := by
    rw [cellSum]
    apply Finset.sum_congr rfl
    intro iy _
    apply Finset.sum_congr rfl
    intro ix _
    have h3 : (ph * self.pooled_width.toNat + pw)
          * ((self.deriveROI x1 y1 x2 y2).roi_bin_grid_h.toNat
              * (self.deriveROI x1 y1 x2 y2).roi_bin_grid_w.toNat)
          + (iy * (self.deriveROI x1 y1 x2 y2).roi_bin_grid_w.toNat + ix)
        = ((ph * self.pooled_width.toNat + pw)
            * (self.deriveROI x1 y1 x2 y2).roi_bin_grid_h.toNat + iy)
          * (self.deriveROI x1 y1 x2 y2).roi_bin_grid_w.toNat + ix := by
      ring
    rw [h3]
  rw [h2]

/-- Witness for C1 at a concrete input: a 4×4 single-channel map with
`v(p) = p`, ROI `(0,0,4,4)`, pooled `2×2`, `sampling_ratio 2`, `aligned`,
output cell `(0, 1, 0)`. -/
theorem forward_cell_value_witness :
    getCell (ROIAlign.forward ⟨2, 2, 1, 2, true⟩ 4 4 1 (fun _ p => (p : ℚ))
        0 0 4 4 true) 2 0 1 0
      = some ((∑ iy ∈ Finset.range
            (ROIAlign.deriveROI ⟨2, 2, 1, 2, true⟩ 0 0 4 4).roi_bin_grid_h.toNat,
          ∑ ix ∈ Finset.range
            (ROIAlign.deriveROI ⟨2, 2, 1, 2, true⟩ 0 0 4 4).roi_bin_grid_w.toNat,
            stencilContrib (fun p => (p : ℚ))
              ((ROIAlign.preCalc ⟨2, 2, 1, 2, true⟩ 4 4 0 0 4 4).getD
                (((1 * (ROIAlign.pooled_width ⟨2, 2, 1, 2, true⟩).toNat + 0)
                    * (ROIAlign.deriveROI ⟨2, 2, 1, 2, true⟩ 0 0 4 4).roi_bin_grid_h.toNat
                    + iy)
                  * (ROIAlign.deriveROI ⟨2, 2, 1, 2, true⟩ 0 0 4 4).roi_bin_grid_w.toNat
                  + ix)
                emptyPreCalc))
        / ((max ((ROIAlign.deriveROI ⟨2, 2, 1, 2, true⟩ 0 0 4 4).roi_bin_grid_h
              * (ROIAlign.deriveROI ⟨2, 2, 1, 2, true⟩ 0 0 4 4).roi_bin_grid_w) 1
            : ℤ) : ℚ)) :=
  forward_cell_value ⟨2, 2, 1, 2, true⟩ 4 4 1 (fun _ p => (p : ℚ))
    0 0 4 4 0 1 0 (by decide) (by decide) (by decide)

/-- C2: the sampling-plan builder (as invoked with
`iy_upper = roi_bin_grid_h`, `ix_upper = roi_bin_grid_w`) emits exactly
`pooled_height * pooled_width * roi_bin_grid_h * roi_bin_grid_w` stencils,
in row-major `(ph, pw, iy, ix)` order with `ph` outermost, and the stencil
of indices `(ph, pw, iy, ix)` is built from the continuous coordinate
`y = roi_start_h + ph*bin_size_h + (iy+0.5)*bin_size_h/roi_bin_grid_h`,
`x = roi_start_w + pw*bin_size_w + (ix+0.5)*bin_size_w/roi_bin_grid_w`. -/
theorem pre_calc_plan (height width PH PW : ℤ) (rsh rsw bsh bsw : ℚ) (gh gw : ℤ)
    (hPH : 0 ≤ PH) (hPW : 0 ≤ PW) (hgh : 0 ≤ gh) (hgw : 0 ≤ gw) :
    (pre_calc_for_bilinear_interpolate height width PH PW gh gw
        rsh rsw bsh bsw gh gw).length = (PH * PW * gh * gw).toNat
    ∧ ∀ ph pw iy ix : ℕ, ph < PH.toNat → pw < PW.toNat →
        iy < gh.toNat → ix < gw.toNat →
        (pre_calc_for_bilinear_interpolate height width PH PW gh gw
            rsh rsw bsh bsw gh gw).getD
            (((ph * PW.toNat + pw) * gh.toNat + iy) * gw.toNat + ix) emptyPreCalc
          = bilinearStencil height width
              (rsh + (ph : ℚ) * bsh + ((iy : ℚ) + 1/2) * bsh / ((gh : ℤ) : ℚ))
              (rsw + (pw : ℚ) * bsw + ((ix : ℚ) + 1/2) * bsw / ((gw : ℤ) : ℚ)) := by
  constructor
  · rw [pre_calc_length]
    have h1 : PH * PW * gh * gw
        = ((PH.toNat * (PW.toNat * (gh.toNat * gw.toNat)) : ℕ) : ℤ) := by
      push_cast
      rw [Int.toNat_of_nonneg hPH, Int.toNat_of_nonneg hPW,
        Int.toNat_of_nonneg hgh, Int.toNat_of_nonneg hgw]
      ring
    rw [h1, Int.toNat_natCast]
  · intro ph pw iy ix h1 h2 h3 h4
    exact pre_calc_getD height width PH PW gh gw rsh rsw bsh bsw gh gw h1 h2 h3 h4

/-- Witness for C2 at a concrete input: `pooled 2×2`, grids `2×2` give 16
stencils. -/
theorem pre_calc_plan_witness :
    (pre_calc_for_bilinear_interpolate 4 4 2 2 2 2 (-1/2) (-1/2) 2 2 2 2).length
      = 16 := by
  have h := pre_calc_plan 4 4 2 2 (-1/2) (-1/2) 2 2 2 2
    (by decide) (by decide) (by decide) (by decide)
  rw [h.1]
  decide

/-- C3: a sample whose continuous coordinate satisfies
`y < -1 or y > height or x < -1 or x > width` gets the all-zero sentinel
stencil, which contributes `0` to any cell sum; otherwise the coordinates
are clamped to `≥ 0`, the emitted stencil is not the sentinel, and its four
weights are non-negative and sum exactly to `1`. -/
theorem stencil_boundary_policy (height width : ℤ) (y x : ℚ) :
    (outOfRange height width y x →
        bilinearStencil height width y x = emptyPreCalc
        ∧ ∀ v : ℤ → ℚ, stencilContrib v (bilinearStencil height width y x) = 0)
    ∧ (¬ outOfRange height width y x →
        0 ≤ clamp0 y ∧ 0 ≤ clamp0 x
        ∧ bilinearStencil height width y x ≠ emptyPreCalc
        ∧ 0 ≤ (bilinearStencil height width y x).w1
        ∧ 0 ≤ (bilinearStencil height width y x).w2
        ∧ 0 ≤ (bilinearStencil height width y x).w3
        ∧ 0 ≤ (bilinearStencil height width y x).w4
        ∧ (bilinearStencil height width y x).w1
            + (bilinearStencil height width y x).w2
            + (bilinearStencil height width y x).w3
            + (bilinearStencil height width y x).w4 = 1) := by
  constructor
  · intro h
    have he : bilinearStencil height width y x = emptyPreCalc := by
      unfold bilinearStencil
      rw [if_pos h]
    refine ⟨he, fun v => ?_⟩
    rw [he]
    unfold stencilContrib emptyPreCalc
    simp
  · intro h
    have hly0 := fracLow_nonneg height (clamp0 y)
    have hly1 := fracLow_le_one height (clamp0 y)
    have hlx0 := fracLow_nonneg width (clamp0 x)
    have hlx1 := fracLow_le_one width (clamp0 x)
    have hsum := bilinearStencil_weight_sum height width y x h
    have hw : bilinearStencil height width y x
        = { pos1 := gridLow height (clamp0 y) * width + gridLow width (clamp0 x)
            pos2 := gridLow height (clamp0 y) * width + gridHigh width (clamp0 x)
            pos3 := gridHigh height (clamp0 y) * width + gridLow width (clamp0 x)
            pos4 := gridHigh height (clamp0 y) * width + gridHigh width (clamp0 x)
            w1 := (1 - fracLow height (clamp0 y)) * (1 - fracLow width (clamp0 x))
            w2 := (1 - fracLow height (clamp0 y)) * fracLow width (clamp0 x)
            w3 := fracLow height (clamp0 y) * (1 - fracLow width (clamp0 x))
            w4 := fracLow height (clamp0 y) * fracLow width (clamp0 x) } := by
      unfold bilinearStencil
      rw [if_neg h]
    refine ⟨clamp0_nonneg y, clamp0_nonneg x, ?_, ?_, ?_, ?_, ?_, hsum⟩
    · intro hctr
      rw [hctr] at hsum
      unfold emptyPreCalc at hsum
      simp at hsum
    · rw [hw]
      exact mul_nonneg (by linarith) (by linarith)
    · rw [hw]
      exact mul_nonneg (by linarith) hlx0
    · rw [hw]
      exact mul_nonneg hly0 (by linarith)
    · rw [hw]
      exact mul_nonneg hly0 hlx0

/-- Witness for C3: the sample `(10, 0)` is out of range of a 4×4 map and
gets the sentinel; the sample `(1/2, 1/2)` is in range and its weights sum
to `1`. -/
theorem stencil_boundary_policy_witness :
    bilinearStencil 4 4 10 0 = emptyPreCalc
    ∧ (bilinearStencil 4 4 (1/2) (1/2)).w1
        + (bilinearStencil 4 4 (1/2) (1/2)).w2
        + (bilinearStencil 4 4 (1/2) (1/2)).w3
        + (bilinearStencil 4 4 (1/2) (1/2)).w4 = 1 :=
  ⟨((stencil_boundary_policy 4 4 10 0).1
      (by unfold outOfRange; norm_num)).1,
   ((stencil_boundary_policy 4 4 (1/2) (1/2)).2
      (by unfold outOfRange; norm_num)).2.2.2.2.2.2.2⟩

/-- C4: with `height ≥ 1` and `width ≥ 1`, every non-sentinel stencil's grid
indices satisfy `0 ≤ y_low ≤ y_high ≤ height-1` and
`0 ≤ x_low ≤ x_high ≤ width-1`, hence all four flat offsets lie in
`[0, height*width)`, so every feature-map read of the reduction engine is in
bounds of the channel buffer. -/
theorem stencil_positions_in_bounds (height width : ℤ) (y x : ℚ)
    (hh : 1 ≤ height) (hw : 1 ≤ width) (h : ¬ outOfRange height width y x) :
    (0 ≤ gridLow height (clamp0 y)
      ∧ gridLow height (clamp0 y) ≤ gridHigh height (clamp0 y)
      ∧ gridHigh height (clamp0 y) ≤ height - 1)
    ∧ (0 ≤ gridLow width (clamp0 x)
      ∧ gridLow width (clamp0 x) ≤ gridHigh width (clamp0 x)
      ∧ gridHigh width (clamp0 x) ≤ width - 1)
    ∧ (0 ≤ (bilinearStencil height width y x).pos1
      ∧ (bilinearStencil height width y x).pos1 < height * width)
    ∧ (0 ≤ (bilinearStencil height width y x).pos2
      ∧ (bilinearStencil height width y x).pos2 < height * width)
    ∧ (0 ≤ (bilinearStencil height width y x).pos3
      ∧ (bilinearStencil height width y x).pos3 < height * width)
    ∧ (0 ≤ (bilinearStencil height width y x).pos4
      ∧ (bilinearStencil height width y x).pos4 < height * width) := by
  have hyl0 : 0 ≤ gridLow height (clamp0 y) :=
    gridLow_nonneg height (clamp0 y) hh (clamp0_nonneg y)
  have hxl0 : 0 ≤ gridLow width (clamp0 x) :=
    gridLow_nonneg width (clamp0 x) hw (clamp0_nonneg x)
  have hylh : gridLow height (clamp0 y) ≤ gridHigh height (clamp0 y) :=
    gridLow_le_gridHigh height (clamp0 y)
  have hxlh : gridLow width (clamp0 x) ≤ gridHigh width (clamp0 x) :=
    gridLow_le_gridHigh width (clamp0 x)
  have hyh : gridHigh height (clamp0 y) ≤ height - 1 := gridHigh_le height (clamp0 y)
  have hxh : gridHigh width (clamp0 x) ≤ width - 1 := gridHigh_le width (clamp0 x)
  have hs : bilinearStencil height width y x
      = { pos1 := gridLow height (clamp0 y) * width + gridLow width (clamp0 x)
          pos2 := gridLow height (clamp0 y) * width + gridHigh width (clamp0 x)
          pos3 := gridHigh height (clamp0 y) * width + gridLow width (clamp0 x)
          pos4 := gridHigh height (clamp0 y) * width + gridHigh width (clamp0 x)
          w1 := (1 - fracLow height (clamp0 y)) * (1 - fracLow width (clamp0 x))
          w2 := (1 - fracLow height (clamp0 y)) * fracLow width (clamp0 x)
          w3 := fracLow height (clamp0 y) * (1 - fracLow width (clamp0 x))
          w4 := fracLow height (clamp0 y) * fracLow width (clamp0 x) } := by
    unfold bilinearStencil
    rw [if_neg h]
  refine ⟨⟨hyl0, hylh, hyh⟩, ⟨hxl0, hxlh, hxh⟩, ?_, ?_, ?_, ?_⟩
  · rw [hs]
    exact pos_bound hyl0 (by omega) hxl0 (by omega) hw
  · rw [hs]
    exact pos_bound hyl0 (by omega) (by omega) hxh hw
  · rw [hs]
    exact pos_bound (by omega) hyh hxl0 (by omega) hw
  · rw [hs]
    exact pos_bound (by omega) hyh (by omega) hxh hw

/-- Witness for C4: the in-range sample `(2, 39/10)` on a 4×4 map addresses
only offsets inside `[0, 16)`. -/
theorem stencil_positions_in_bounds_witness :
    0 ≤ (bilinearStencil 4 4 2 (39/10)).pos4
    ∧ (bilinearStencil 4 4 2 (39/10)).pos4 < 4 * 4 :=
  (stencil_positions_in_bounds 4 4 2 (39/10) (by decide) (by decide)
    (by unfold outOfRange; norm_num)).2.2.2.2.2

/- ### Further projection identities of the derived quantities -/

lemma deriveROI_start_w (self : ROIAlign) (x1 y1 x2 y2 : ℚ) :
    (self.deriveROI x1 y1 x2 y2).roi_start_w
      = x1 * self.spatial_scale - (if self.aligned then 1/2 else 0) := rfl

lemma deriveROI_start_h (self : ROIAlign) (x1 y1 x2 y2 : ℚ) :
    (self.deriveROI x1 y1 x2 y2).roi_start_h
      = y1 * self.spatial_scale - (if self.aligned then 1/2 else 0) := rfl

lemma deriveROI_width (self : ROIAlign) (x1 y1 x2 y2 : ℚ) :
    (self.deriveROI x1 y1 x2 y2).roi_width
      = (if self.aligned
          then (x2 * self.spatial_scale - (if self.aligned then 1/2 else 0))
            - (x1 * self.spatial_scale - (if self.aligned then 1/2 else 0))
          else max ((x2 * self.spatial_scale - (if self.aligned then 1/2 else 0))
            - (x1 * self.spatial_scale - (if self.aligned then 1/2 else 0))) 1) := rfl

lemma deriveROI_height (self : ROIAlign) (x1 y1 x2 y2 : ℚ) :
    (self.deriveROI x1 y1 x2 y2).roi_height
      = (if self.aligned
          then (y2 * self.spatial_scale - (if self.aligned then 1/2 else 0))
            - (y1 * self.spatial_scale - (if self.aligned then 1/2 else 0))
          else max ((y2 * self.spatial_scale - (if self.aligned then 1/2 else 0))
            - (y1 * self.spatial_scale - (if self.aligned then 1/2 else 0))) 1) := rfl

lemma deriveROI_bin_w (self : ROIAlign) (x1 y1 x2 y2 : ℚ) :
    (self.deriveROI x1 y1 x2 y2).bin_size_w
      = (self.deriveROI x1 y1 x2 y2).roi_width
        / ((self.pooled_width : ℤ) : ℚ) := rfl

lemma deriveROI_bin_h (self : ROIAlign) (x1 y1 x2 y2 : ℚ) :
    (self.deriveROI x1 y1 x2 y2).bin_size_h
      = (self.deriveROI x1 y1 x2 y2).roi_height
        / ((self.pooled_height : ℤ) : ℚ) := rfl


/-- C5: the derived ROI quantities computed by `forward` (lines 164-182)
are exactly the spec's formulas: corners scaled then shifted by the aligned
offset, extents clamped to a minimum of `1` iff `aligned` is false, and bin
sizes `extent / pooled`. -/
theorem derive_roi_matches_spec (self : ROIAlign) (x1 y1 x2 y2 : ℚ) :
    (self.deriveROI x1 y1 x2 y2).roi_start_w
        = specCorner x1 self.spatial_scale self.aligned
    ∧ (self.deriveROI x1 y1 x2 y2).roi_start_h
        = specCorner y1 self.spatial_scale self.aligned
    ∧ (self.deriveROI x1 y1 x2 y2).roi_width
        = specExtent x1 x2 self.spatial_scale self.aligned
    ∧ (self.deriveROI x1 y1 x2 y2).roi_height
        = specExtent y1 y2 self.spatial_scale self.aligned
    ∧ (self.deriveROI x1 y1 x2 y2).bin_size_w
        = specBinSize (specExtent x1 x2 self.spatial_scale self.aligned)
            self.pooled_width
    ∧ (self.deriveROI x1 y1 x2 y2).bin_size_h
        = specBinSize (specExtent y1 y2 self.spatial_scale self.aligned)
            self.pooled_height := by
  simp only [specExtent, specCorner, specBinSize, specOffset]
  refine ⟨deriveROI_start_w self x1 y1 x2 y2, deriveROI_start_h self x1 y1 x2 y2,
    deriveROI_width self x1 y1 x2 y2, deriveROI_height self x1 y1 x2 y2, ?_, ?_⟩
  · rw [deriveROI_bin_w, deriveROI_width]
  · rw [deriveROI_bin_h, deriveROI_height]

/-- Counterexample to C6 as stated: with `sampling_ratio = 0` (adaptive),
`aligned = true`, `spatial_scale = 1`, pooled `1×1` and the degenerate ROI
`(0,0,0,0)`, the adaptive rule yields `roi_bin_grid_h * roi_bin_grid_w = 0`,
not at least `1`: output cells are then `0/1`, not an arithmetic mean of one
or more samples. -/
theorem sample_count_zero_counterexample :
    (ROIAlign.deriveROI ⟨1, 1, 1, 0, true⟩ 0 0 0 0).roi_bin_grid_h
      * (ROIAlign.deriveROI ⟨1, 1, 1, 0, true⟩ 0 0 0 0).roi_bin_grid_w = 0 := by
  have hh : (ROIAlign.deriveROI ⟨1, 1, 1, 0, true⟩ 0 0 0 0).roi_bin_grid_h = 0 := by
    rw [deriveROI_grid_h, deriveROI_height]
    norm_num
  rw [hh, zero_mul]

/-- C6 (amended): provided the pooled dimensions are positive and either
`sampling_ratio > 0` or the derived `roi_height` and `roi_width` are positive
(in particular for every non-degenerate ROI, and always when `aligned` is
false), the sample count `roi_bin_grid_h * roi_bin_grid_w` is at least `1`
and each output cell is the arithmetic mean of exactly that many bilinear
samples. -/
theorem forward_cell_is_mean (self : ROIAlign) (height width : ℤ) (channels : ℕ)
    (bottom : ℕ → ℤ → ℚ) (x1 y1 x2 y2 : ℚ) (c ph pw : ℕ)
    (hPH : 0 < self.pooled_height) (_hPW : 0 < self.pooled_width)
    (hpos : 0 < self.sampling_ratio
      ∨ (0 < (self.deriveROI x1 y1 x2 y2).roi_height
          ∧ 0 < (self.deriveROI x1 y1 x2 y2).roi_width))
    (_hc : c < channels)
    (hph : ph < self.pooled_height.toNat) (hpw : pw < self.pooled_width.toNat) :
    1 ≤ (self.deriveROI x1 y1 x2 y2).roi_bin_grid_h
        * (self.deriveROI x1 y1 x2 y2).roi_bin_grid_w
    ∧ getCell (self.forward height width channels bottom x1 y1 x2 y2 true)
        self.pooled_width c ph pw
      = some (cellSum (bottom c) (self.preCalc height width x1 y1 x2 y2)
          ((ph * self.pooled_width.toNat + pw)
            * ((self.deriveROI x1 y1 x2 y2).roi_bin_grid_h.toNat
                * (self.deriveROI x1 y1 x2 y2).roi_bin_grid_w.toNat))
          (self.deriveROI x1 y1 x2 y2).roi_bin_grid_h.toNat
          (self.deriveROI x1 y1 x2 y2).roi_bin_grid_w.toNat
        / (((self.deriveROI x1 y1 x2 y2).roi_bin_grid_h
            * (self.deriveROI x1 y1 x2 y2).roi_bin_grid_w : ℤ) : ℚ)) := by
  have hgh : 1 ≤ (self.deriveROI x1 y1 x2 y2).roi_bin_grid_h := by
    rw [deriveROI_grid_h]
    by_cases hsr : 0 < self.sampling_ratio
    · rw [if_pos hsr]
      omega
    · rw [if_neg hsr]
      rcases hpos with hsr' | ⟨hrh, _⟩
      · omega
      · have hq : (0:ℚ) < (self.deriveROI x1 y1 x2 y2).roi_height
            / ((self.pooled_height : ℤ) : ℚ) := by
          apply div_pos hrh
          exact_mod_cast hPH
        have hc := Int.lt_ceil.mpr (by exact_mod_cast hq :
          ((0:ℤ) : ℚ) < (self.deriveROI x1 y1 x2 y2).roi_height
            / ((self.pooled_height : ℤ) : ℚ))
        omega
  have hgw : 1 ≤ (self.deriveROI x1 y1 x2 y2).roi_bin_grid_w := by
    rw [deriveROI_grid_w]
    by_cases hsr : 0 < self.sampling_ratio
    · rw [if_pos hsr]
      omega
    · rw [if_neg hsr]
      rcases hpos with hsr' | ⟨_, hrw⟩
      · omega
      · have hq : (0:ℚ) < (self.deriveROI x1 y1 x2 y2).roi_width
            / ((self.pooled_width : ℤ) : ℚ) := by
          apply div_pos hrw
          exact_mod_cast _hPW
        have hc := Int.lt_ceil.mpr (by exact_mod_cast hq :
          ((0:ℤ) : ℚ) < (self.deriveROI x1 y1 x2 y2).roi_width
            / ((self.pooled_width : ℤ) : ℚ))
        omega
  have hprod : 1 ≤ (self.deriveROI x1 y1 x2 y2).roi_bin_grid_h
      * (self.deriveROI x1 y1 x2 y2).roi_bin_grid_w := by
    have h1 := mul_le_mul hgh hgw (by norm_num) (by omega)
    simpa using h1
  refine ⟨hprod, ?_⟩
  rw [forward_getCell self height width channels bottom x1 y1 x2 y2 c ph pw hph hpw]
  rw [deriveROI_count, max_eq_left hprod]

/-- Witness for C6 at a concrete input: pooled `1×1`, `sampling_ratio 3`,
ROI `(0,0,1,1)` on a 4×4 map. -/
theorem forward_cell_is_mean_witness :
    1 ≤ (ROIAlign.deriveROI ⟨1, 1, 1, 3, true⟩ 0 0 1 1).roi_bin_grid_h
        * (ROIAlign.deriveROI ⟨1, 1, 1, 3, true⟩ 0 0 1 1).roi_bin_grid_w
    ∧ getCell (ROIAlign.forward ⟨1, 1, 1, 3, true⟩ 4 4 1 (fun _ p => (p : ℚ))
        0 0 1 1 true) 1 0 0 0
      = some (cellSum (fun p => (p : ℚ))
          (ROIAlign.preCalc ⟨1, 1, 1, 3, true⟩ 4 4 0 0 1 1)
          ((0 * (ROIAlign.pooled_width ⟨1, 1, 1, 3, true⟩).toNat + 0)
            * ((ROIAlign.deriveROI ⟨1, 1, 1, 3, true⟩ 0 0 1 1).roi_bin_grid_h.toNat
                * (ROIAlign.deriveROI ⟨1, 1, 1, 3, true⟩ 0 0 1 1).roi_bin_grid_w.toNat))
          (ROIAlign.deriveROI ⟨1, 1, 1, 3, true⟩ 0 0 1 1).roi_bin_grid_h.toNat
          (ROIAlign.deriveROI ⟨1, 1, 1, 3, true⟩ 0 0 1 1).roi_bin_grid_w.toNat
        / (((ROIAlign.deriveROI ⟨1, 1, 1, 3, true⟩ 0 0 1 1).roi_bin_grid_h
            * (ROIAlign.deriveROI ⟨1, 1, 1, 3, true⟩ 0 0 1 1).roi_bin_grid_w : ℤ) : ℚ)) :=
  forward_cell_is_mean ⟨1, 1, 1, 3, true⟩ 4 4 1 (fun _ p => (p : ℚ))
    0 0 1 1 0 0 0 (by decide) (by decide) (Or.inl (by decide)) (by decide)
    (by decide) (by decide)

lemma preCalc_getD (self : ROIAlign) (height width : ℤ) (x1 y1 x2 y2 : ℚ)
    {ph pw iy ix : ℕ}
    (hph : ph < self.pooled_height.toNat) (hpw : pw < self.pooled_width.toNat)
    (hiy : iy < (self.deriveROI x1 y1 x2 y2).roi_bin_grid_h.toNat)
    (hix : ix < (self.deriveROI x1 y1 x2 y2).roi_bin_grid_w.toNat) :
    (self.preCalc height width x1 y1 x2 y2).getD
        ((ph * self.pooled_width.toNat + pw)
          * ((self.deriveROI x1 y1 x2 y2).roi_bin_grid_h.toNat
              * (self.deriveROI x1 y1 x2 y2).roi_bin_grid_w.toNat)
          + (iy * (self.deriveROI x1 y1 x2 y2).roi_bin_grid_w.toNat + ix))
        emptyPreCalc
      = bilinearStencil height width
          (sampleY (self.deriveROI x1 y1 x2 y2).roi_start_h
            (self.deriveROI x1 y1 x2 y2).bin_size_h
            (self.deriveROI x1 y1 x2 y2).roi_bin_grid_h ph iy)
          (sampleX (self.deriveROI x1 y1 x2 y2).roi_start_w
            (self.deriveROI x1 y1 x2 y2).bin_size_w
            (self.deriveROI x1 y1 x2 y2).roi_bin_grid_w pw ix) := by
  have h1 : (ph * self.pooled_width.toNat + pw)
        * ((self.deriveROI x1 y1 x2 y2).roi_bin_grid_h.toNat
            * (self.deriveROI x1 y1 x2 y2).roi_bin_grid_w.toNat)
        + (iy * (self.deriveROI x1 y1 x2 y2).roi_bin_grid_w.toNat + ix)
      = ((ph * self.pooled_width.toNat + pw)
          * (self.deriveROI x1 y1 x2 y2).roi_bin_grid_h.toNat + iy)
        * (self.deriveROI x1 y1 x2 y2).roi_bin_grid_w.toNat + ix := by
    ring
  rw [ROIAlign.preCalc, h1]
  exact pre_calc_getD height width self.pooled_height self.pooled_width
    (self.deriveROI x1 y1 x2 y2).roi_bin_grid_h
    (self.deriveROI x1 y1 x2 y2).roi_bin_grid_w
    (self.deriveROI x1 y1 x2 y2).roi_start_h
    (self.deriveROI x1 y1 x2 y2).roi_start_w
    (self.deriveROI x1 y1 x2 y2).bin_size_h
    (self.deriveROI x1 y1 x2 y2).bin_size_w
    (self.deriveROI x1 y1 x2 y2).roi_bin_grid_h
    (self.deriveROI x1 y1 x2 y2).roi_bin_grid_w
    hph hpw hiy hix

/-- C7: on a feature map all of whose elements equal `v`, for an ROI whose
sample points all fall inside the feature map (no sentinel stencils emitted)
and a sampling grid of at least one sample per bin along each axis, every
output cell of the forward pass equals exactly `v`. -/
theorem forward_const_map (self : ROIAlign) (height width : ℤ) (channels : ℕ)
    (v : ℚ) (x1 y1 x2 y2 : ℚ) (c ph pw : ℕ)
    (hgh : 1 ≤ (self.deriveROI x1 y1 x2 y2).roi_bin_grid_h)
    (hgw : 1 ≤ (self.deriveROI x1 y1 x2 y2).roi_bin_grid_w)
    (hin : ∀ ph' pw' iy ix : ℕ,
      ph' < self.pooled_height.toNat → pw' < self.pooled_width.toNat →
      iy < (self.deriveROI x1 y1 x2 y2).roi_bin_grid_h.toNat →
      ix < (self.deriveROI x1 y1 x2 y2).roi_bin_grid_w.toNat →
      ¬ outOfRange height width
        (sampleY (self.deriveROI x1 y1 x2 y2).roi_start_h
          (self.deriveROI x1 y1 x2 y2).bin_size_h
          (self.deriveROI x1 y1 x2 y2).roi_bin_grid_h ph' iy)
        (sampleX (self.deriveROI x1 y1 x2 y2).roi_start_w
          (self.deriveROI x1 y1 x2 y2).bin_size_w
          (self.deriveROI x1 y1 x2 y2).roi_bin_grid_w pw' ix))
    (_hc : c < channels)
    (hph : ph < self.pooled_height.toNat) (hpw : pw < self.pooled_width.toNat) :
    getCell (self.forward height width channels (fun _ _ => v) x1 y1 x2 y2 true)
        self.pooled_width c ph pw = some v := by
  rw [forward_getCell self height width channels (fun _ _ => v) x1 y1 x2 y2
    c ph pw hph hpw]
  have hsum : cellSum ((fun _ _ => v) c) (self.preCalc height width x1 y1 x2 y2)
      ((ph * self.pooled_width.toNat + pw)
        * ((self.deriveROI x1 y1 x2 y2).roi_bin_grid_h.toNat
            * (self.deriveROI x1 y1 x2 y2).roi_bin_grid_w.toNat))
      (self.deriveROI x1 y1 x2 y2).roi_bin_grid_h.toNat
      (self.deriveROI x1 y1 x2 y2).roi_bin_grid_w.toNat
      = (((self.deriveROI x1 y1 x2 y2).roi_bin_grid_h.toNat
          * (self.deriveROI x1 y1 x2 y2).roi_bin_grid_w.toNat : ℕ) : ℚ) * v := by
    rw [cellSum]
    have hterm : ∀ iy ∈ Finset.range (self.deriveROI x1 y1 x2 y2).roi_bin_grid_h.toNat,
        ∑ ix ∈ Finset.range (self.deriveROI x1 y1 x2 y2).roi_bin_grid_w.toNat,
          stencilContrib ((fun _ _ => v) c)
            ((self.preCalc height width x1 y1 x2 y2).getD
              ((ph * self.pooled_width.toNat + pw)
                * ((self.deriveROI x1 y1 x2 y2).roi_bin_grid_h.toNat
                    * (self.deriveROI x1 y1 x2 y2).roi_bin_grid_w.toNat)
                + (iy * (self.deriveROI x1 y1 x2 y2).roi_bin_grid_w.toNat + ix))
              emptyPreCalc)
        = ∑ _ix ∈ Finset.range (self.deriveROI x1 y1 x2 y2).roi_bin_grid_w.toNat, v := by
      intro iy hiy
      apply Finset.sum_congr rfl
      intro ix hix
      rw [preCalc_getD self height width x1 y1 x2 y2 hph hpw
        (Finset.mem_range.mp hiy) (Finset.mem_range.mp hix)]
      rw [stencilContrib_const]
      rw [bilinearStencil_weight_sum height width _ _
        (hin ph pw iy ix hph hpw (Finset.mem_range.mp hiy) (Finset.mem_range.mp hix))]
      rw [one_mul]
    rw [Finset.sum_congr rfl hterm]
    simp [Finset.sum_const, Finset.card_range, mul_assoc]
  rw [hsum]
  rw [deriveROI_count]
  have hprod : 1 ≤ (self.deriveROI x1 y1 x2 y2).roi_bin_grid_h
      * (self.deriveROI x1 y1 x2 y2).roi_bin_grid_w := by
    have h1 := mul_le_mul hgh hgw (by norm_num) (by omega)
    simpa using h1
  rw [max_eq_left hprod]
  have hZ : (((self.deriveROI x1 y1 x2 y2).roi_bin_grid_h.toNat
      * (self.deriveROI x1 y1 x2 y2).roi_bin_grid_w.toNat : ℕ) : ℤ)
      = (self.deriveROI x1 y1 x2 y2).roi_bin_grid_h
        * (self.deriveROI x1 y1 x2 y2).roi_bin_grid_w := by
    push_cast
    rw [Int.toNat_of_nonneg (by omega : (0:ℤ) ≤ (self.deriveROI x1 y1 x2 y2).roi_bin_grid_h),
      Int.toNat_of_nonneg (by omega : (0:ℤ) ≤ (self.deriveROI x1 y1 x2 y2).roi_bin_grid_w)]
  have hcast : (((self.deriveROI x1 y1 x2 y2).roi_bin_grid_h.toNat
      * (self.deriveROI x1 y1 x2 y2).roi_bin_grid_w.toNat : ℕ) : ℚ)
      = (((self.deriveROI x1 y1 x2 y2).roi_bin_grid_h
          * (self.deriveROI x1 y1 x2 y2).roi_bin_grid_w : ℤ) : ℚ) := by
    exact_mod_cast hZ
  rw [hcast]
  have hne : (((self.deriveROI x1 y1 x2 y2).roi_bin_grid_h
      * (self.deriveROI x1 y1 x2 y2).roi_bin_grid_w : ℤ) : ℚ) ≠ 0 := by
    have h2 : (1:ℚ) ≤ (((self.deriveROI x1 y1 x2 y2).roi_bin_grid_h
        * (self.deriveROI x1 y1 x2 y2).roi_bin_grid_w : ℤ) : ℚ) := by
      exact_mod_cast hprod
    linarith
  rw [mul_div_cancel_left₀ _ hne]

/-- Witness for C7 at a concrete input: a 1×1 constant map of value `3`,
ROI `(0,0,1,1)`, pooled `1×1`, `sampling_ratio 1`, `aligned`; the output
cell is exactly `3`. -/
theorem forward_const_map_witness :
    getCell (ROIAlign.forward ⟨1, 1, 1, 1, true⟩ 1 1 1 (fun _ _ => (3 : ℚ))
        0 0 1 1 true) 1 0 0 0 = some 3 :=
  forward_const_map ⟨1, 1, 1, 1, true⟩ 1 1 1 3 0 0 1 1 0 0 0
    (by rw [deriveROI_grid_h]; norm_num)
    (by rw [deriveROI_grid_w]; norm_num)
    (by
      intro ph' pw' iy ix h1 h2 h3 h4
      have hg : (ROIAlign.deriveROI ⟨1, 1, 1, 1, true⟩ 0 0 1 1).roi_bin_grid_h
          = 1 := by
        rw [deriveROI_grid_h]
        norm_num
      have hg' : (ROIAlign.deriveROI ⟨1, 1, 1, 1, true⟩ 0 0 1 1).roi_bin_grid_w
          = 1 := by
        rw [deriveROI_grid_w]
        norm_num
      rw [hg] at h3
      rw [hg'] at h4
      norm_num at h1 h2 h3 h4
      subst h1
      subst h2
      subst h3
      subst h4
      rw [deriveROI_start_h, deriveROI_bin_h, deriveROI_height, hg,
        deriveROI_start_w, deriveROI_bin_w, deriveROI_width, hg']
      norm_num [sampleY, sampleX, outOfRange])
    (by decide) (by decide) (by decide)

/-- C8: running `forward` with `aligned = false` on ROI `(x1,y1,x2,y2)`
equals running it with `aligned = true` on the coordinates pre-shifted by
`+0.5/spatial_scale`, provided the scaled extents `(x2-x1)*s` and
`(y2-y1)*s` are at least `1` so the non-aligned minimum-size clamp has no
effect. -/
theorem aligned_offset_equivalence (PW PH : ℤ) (s : ℚ) (sr : ℤ)
    (height width : ℤ) (channels : ℕ) (bottom : ℕ → ℤ → ℚ)
    (x1 y1 x2 y2 : ℚ) (alloc_ok : Bool)
    (hw : 1 ≤ (x2 - x1) * s) (hh : 1 ≤ (y2 - y1) * s) :
    ROIAlign.forward ⟨PW, PH, s, sr, false⟩ height width channels bottom
        x1 y1 x2 y2 alloc_ok
      = ROIAlign.forward ⟨PW, PH, s, sr, true⟩ height width channels bottom
          (x1 + (1/2) / s) (y1 + (1/2) / s) (x2 + (1/2) / s) (y2 + (1/2) / s)
          alloc_ok := by
  have hs : s ≠ 0 := by
    intro h0
    rw [h0, mul_zero] at hw
    linarith
  have hSW : (ROIAlign.deriveROI ⟨PW, PH, s, sr, false⟩ x1 y1 x2 y2).roi_start_w
      = (ROIAlign.deriveROI ⟨PW, PH, s, sr, true⟩ (x1 + (1/2)/s) (y1 + (1/2)/s)
          (x2 + (1/2)/s) (y2 + (1/2)/s)).roi_start_w := by
    rw [deriveROI_start_w, deriveROI_start_w]
    norm_num
    field_simp
    ring
  have hSH : (ROIAlign.deriveROI ⟨PW, PH, s, sr, false⟩ x1 y1 x2 y2).roi_start_h
      = (ROIAlign.deriveROI ⟨PW, PH, s, sr, true⟩ (x1 + (1/2)/s) (y1 + (1/2)/s)
          (x2 + (1/2)/s) (y2 + (1/2)/s)).roi_start_h := by
    rw [deriveROI_start_h, deriveROI_start_h]
    norm_num
    field_simp
    ring
  have hW : (ROIAlign.deriveROI ⟨PW, PH, s, sr, false⟩ x1 y1 x2 y2).roi_width
      = (ROIAlign.deriveROI ⟨PW, PH, s, sr, true⟩ (x1 + (1/2)/s) (y1 + (1/2)/s)
          (x2 + (1/2)/s) (y2 + (1/2)/s)).roi_width := by
    rw [deriveROI_width, deriveROI_width]
    norm_num
    have h1 : x2 * s - x1 * s = (x2 - x1) * s := by ring
    rw [h1, max_eq_left hw]
    field_simp
    ring
  have hH : (ROIAlign.deriveROI ⟨PW, PH, s, sr, false⟩ x1 y1 x2 y2).roi_height
      = (ROIAlign.deriveROI ⟨PW, PH, s, sr, true⟩ (x1 + (1/2)/s) (y1 + (1/2)/s)
          (x2 + (1/2)/s) (y2 + (1/2)/s)).roi_height := by
    rw [deriveROI_height, deriveROI_height]
    norm_num
    have h1 : y2 * s - y1 * s = (y2 - y1) * s := by ring
    rw [h1, max_eq_left hh]
    field_simp
    ring
  have hBW : (ROIAlign.deriveROI ⟨PW, PH, s, sr, false⟩ x1 y1 x2 y2).bin_size_w
      = (ROIAlign.deriveROI ⟨PW, PH, s, sr, true⟩ (x1 + (1/2)/s) (y1 + (1/2)/s)
          (x2 + (1/2)/s) (y2 + (1/2)/s)).bin_size_w := by
    rw [deriveROI_bin_w, deriveROI_bin_w, hW]
  have hBH : (ROIAlign.deriveROI ⟨PW, PH, s, sr, false⟩ x1 y1 x2 y2).bin_size_h
      = (ROIAlign.deriveROI ⟨PW, PH, s, sr, true⟩ (x1 + (1/2)/s) (y1 + (1/2)/s)
          (x2 + (1/2)/s) (y2 + (1/2)/s)).bin_size_h := by
    rw [deriveROI_bin_h, deriveROI_bin_h, hH]
  have hGh : (ROIAlign.deriveROI ⟨PW, PH, s, sr, false⟩ x1 y1 x2 y2).roi_bin_grid_h
      = (ROIAlign.deriveROI ⟨PW, PH, s, sr, true⟩ (x1 + (1/2)/s) (y1 + (1/2)/s)
          (x2 + (1/2)/s) (y2 + (1/2)/s)).roi_bin_grid_h := by
    rw [deriveROI_grid_h, deriveROI_grid_h, hH]
  have hGw : (ROIAlign.deriveROI ⟨PW, PH, s, sr, false⟩ x1 y1 x2 y2).roi_bin_grid_w
      = (ROIAlign.deriveROI ⟨PW, PH, s, sr, true⟩ (x1 + (1/2)/s) (y1 + (1/2)/s)
          (x2 + (1/2)/s) (y2 + (1/2)/s)).roi_bin_grid_w := by
    rw [deriveROI_grid_w, deriveROI_grid_w, hW]
  have hC : (ROIAlign.deriveROI ⟨PW, PH, s, sr, false⟩ x1 y1 x2 y2).count
      = (ROIAlign.deriveROI ⟨PW, PH, s, sr, true⟩ (x1 + (1/2)/s) (y1 + (1/2)/s)
          (x2 + (1/2)/s) (y2 + (1/2)/s)).count := by
    rw [deriveROI_count, deriveROI_count, hGh, hGw]
  have hd : ROIAlign.deriveROI ⟨PW, PH, s, sr, false⟩ x1 y1 x2 y2
      = ROIAlign.deriveROI ⟨PW, PH, s, sr, true⟩ (x1 + (1/2)/s) (y1 + (1/2)/s)
          (x2 + (1/2)/s) (y2 + (1/2)/s) :=
    DerivedROI.ext hSW hSH hW hH hBW hBH hGh hGw hC
  simp only [ROIAlign.forward, ROIAlign.preCalc, hd]

/-- Witness for C8 at a concrete input: `s = 1`, ROI `(0,0,2,2)` versus the
pre-shifted ROI `(1/2,1/2,5/2,5/2)` with `aligned = true`. -/
theorem aligned_offset_equivalence_witness :
    ROIAlign.forward ⟨1, 1, 1, 1, false⟩ 2 2 1 (fun _ p => (p : ℚ))
        0 0 2 2 true
      = ROIAlign.forward ⟨1, 1, 1, 1, true⟩ 2 2 1 (fun _ p => (p : ℚ))
          (0 + (1/2) / 1) (0 + (1/2) / 1) (2 + (1/2) / 1) (2 + (1/2) / 1)
          true :=
  aligned_offset_equivalence 1 1 1 1 2 2 1 (fun _ p => (p : ℚ)) 0 0 2 2 true
    (by norm_num) (by norm_num)

/-- C9: `forward` fails exactly when output allocation fails: on allocation
failure it returns the distinct status `-100` with no output blob; otherwise
it returns `0` and a fully-written output (every channel's cell list has
exactly `pooled_height * pooled_width` entries), for every ROI whatsoever —
degenerate or out-of-range ROIs are never reported as errors. -/
theorem forward_status (self : ROIAlign) (height width : ℤ) (channels : ℕ)
    (bottom : ℕ → ℤ → ℚ) (x1 y1 x2 y2 : ℚ) :
    self.forward height width channels bottom x1 y1 x2 y2 false = (-100, none)
    ∧ (self.forward height width channels bottom x1 y1 x2 y2 true).1 = 0
    ∧ ∀ c : ℕ,
        channelLen (self.forward height width channels bottom x1 y1 x2 y2 true) c
          = some (self.pooled_height.toNat * self.pooled_width.toNat) := by
  refine ⟨?_, ?_, fun c =>
    forward_channelLen self height width channels bottom x1 y1 x2 y2 c⟩
  · rw [ROIAlign.forward]
    simp [allocSucceeds]
  · rw [ROIAlign.forward]
    simp [allocSucceeds]

/-- Counterexample to C10 as stated: with `sampling_ratio = 0`,
`aligned = true`, `spatial_scale = 1`, pooled `1×1` and ROI `(0,0,0,-2)`
the scaled ROI is degenerate (`roi_height = -2 ≤ 0`), yet the adaptive rule
yields `roi_bin_grid_h = ceil(-2/1) = -2`, not `0`. -/
theorem degenerate_grid_counterexample :
    ROIAlign.sampling_ratio ⟨1, 1, 1, 0, true⟩ ≤ 0
    ∧ ROIAlign.aligned ⟨1, 1, 1, 0, true⟩ = true
    ∧ (ROIAlign.deriveROI ⟨1, 1, 1, 0, true⟩ 0 0 0 (-2)).roi_height ≤ 0
    ∧ (ROIAlign.deriveROI ⟨1, 1, 1, 0, true⟩ 0 0 0 (-2)).roi_bin_grid_h ≠ 0 := by
  refine ⟨by decide, by decide, ?_, ?_⟩
  · rw [deriveROI_height]
    norm_num
  · rw [deriveROI_grid_h, deriveROI_height]
    norm_num

/-- C10 (amended): if `sampling_ratio ≤ 0`, `aligned` is true, the pooled
dimensions are positive, and along some axis the derived ROI extent lies in
`(-pooled, 0]` (in particular any degenerate ROI whose extent deficit is
smaller than the pooled dimension), then the adaptive rule yields
`roi_bin_grid = 0` for that axis, the stencil sequence is empty, and
`forward` still returns success with every output cell exactly `0` (the
empty sum divided by `count = max(0, 1) = 1`). -/
theorem degenerate_roi_zero_output (self : ROIAlign) (height width : ℤ)
    (channels : ℕ) (bottom : ℕ → ℤ → ℚ) (x1 y1 x2 y2 : ℚ) (c ph pw : ℕ)
    (hsr : self.sampling_ratio ≤ 0) (_hal : self.aligned = true)
    (hPH : 0 < self.pooled_height) (hPW : 0 < self.pooled_width)
    (hdeg : (-((self.pooled_height : ℤ) : ℚ)
              < (self.deriveROI x1 y1 x2 y2).roi_height
            ∧ (self.deriveROI x1 y1 x2 y2).roi_height ≤ 0)
          ∨ (-((self.pooled_width : ℤ) : ℚ)
              < (self.deriveROI x1 y1 x2 y2).roi_width
            ∧ (self.deriveROI x1 y1 x2 y2).roi_width ≤ 0))
    (hph : ph < self.pooled_height.toNat) (hpw : pw < self.pooled_width.toNat) :
    ((self.deriveROI x1 y1 x2 y2).roi_bin_grid_h = 0
      ∨ (self.deriveROI x1 y1 x2 y2).roi_bin_grid_w = 0)
    ∧ self.preCalc height width x1 y1 x2 y2 = []
    ∧ (self.forward height width channels bottom x1 y1 x2 y2 true).1 = 0
    ∧ getCell (self.forward height width channels bottom x1 y1 x2 y2 true)
        self.pooled_width c ph pw = some 0 := by
  have hsr' : ¬ 0 < self.sampling_ratio := by omega
  have hgrid : (self.deriveROI x1 y1 x2 y2).roi_bin_grid_h = 0
      ∨ (self.deriveROI x1 y1 x2 y2).roi_bin_grid_w = 0 := by
    rcases hdeg with ⟨hlo, hhi⟩ | ⟨hlo, hhi⟩
    · left
      rw [deriveROI_grid_h, if_neg hsr']
      have hPHq : (0:ℚ) < ((self.pooled_height : ℤ) : ℚ) := by exact_mod_cast hPH
      have hq1 : (-1:ℚ) < (self.deriveROI x1 y1 x2 y2).roi_height
          / ((self.pooled_height : ℤ) : ℚ) := by
        rw [lt_div_iff hPHq]
        linarith
      have hq2 : (self.deriveROI x1 y1 x2 y2).roi_height
          / ((self.pooled_height : ℤ) : ℚ) ≤ 0 := by
        rw [div_le_iff hPHq]
        linarith
      have hc1 := Int.lt_ceil.mpr (by exact_mod_cast hq1 :
        (((-1:ℤ)) : ℚ) < (self.deriveROI x1 y1 x2 y2).roi_height
          / ((self.pooled_height : ℤ) : ℚ))
      have hc2 := Int.ceil_le.mpr (by exact_mod_cast hq2 :
        (self.deriveROI x1 y1 x2 y2).roi_height
          / ((self.pooled_height : ℤ) : ℚ) ≤ ((0:ℤ) : ℚ))
      omega
    · right
      rw [deriveROI_grid_w, if_neg hsr']
      have hPWq : (0:ℚ) < ((self.pooled_width : ℤ) : ℚ) := by exact_mod_cast hPW
      have hq1 : (-1:ℚ) < (self.deriveROI x1 y1 x2 y2).roi_width
          / ((self.pooled_width : ℤ) : ℚ) := by
        rw [lt_div_iff hPWq]
        linarith
      have hq2 : (self.deriveROI x1 y1 x2 y2).roi_width
          / ((self.pooled_width : ℤ) : ℚ) ≤ 0 := by
        rw [div_le_iff hPWq]
        linarith
      have hc1 := Int.lt_ceil.mpr (by exact_mod_cast hq1 :
        (((-1:ℤ)) : ℚ) < (self.deriveROI x1 y1 x2 y2).roi_width
          / ((self.pooled_width : ℤ) : ℚ))
      have hc2 := Int.ceil_le.mpr (by exact_mod_cast hq2 :
        (self.deriveROI x1 y1 x2 y2).roi_width
          / ((self.pooled_width : ℤ) : ℚ) ≤ ((0:ℤ) : ℚ))
      omega
  have hnil : self.preCalc height width x1 y1 x2 y2 = [] := by
    have hlen : (self.preCalc height width x1 y1 x2 y2).length = 0 := by
      rw [ROIAlign.preCalc, pre_calc_length]
      rcases hgrid with h0 | h0 <;> rw [h0] <;> simp
    exact List.length_eq_zero.mp hlen
  refine ⟨hgrid, hnil, ?_, ?_⟩
  · rw [ROIAlign.forward]
    simp [allocSucceeds]
  · rw [forward_getCell self height width channels bottom x1 y1 x2 y2
      c ph pw hph hpw]
    have hz : cellSum (bottom c) (self.preCalc height width x1 y1 x2 y2)
        ((ph * self.pooled_width.toNat + pw)
          * ((self.deriveROI x1 y1 x2 y2).roi_bin_grid_h.toNat
              * (self.deriveROI x1 y1 x2 y2).roi_bin_grid_w.toNat))
        (self.deriveROI x1 y1 x2 y2).roi_bin_grid_h.toNat
        (self.deriveROI x1 y1 x2 y2).roi_bin_grid_w.toNat = 0 := by
      apply cellSum_zero
      rcases hgrid with h0 | h0
      · left
        rw [h0]
        rfl
      · right
        rw [h0]
        rfl
    rw [hz, zero_div]

/-- Witness for C10 at a concrete input: pooled `1×1`, `sampling_ratio 0`,
`aligned`, point ROI `(0,0,0,0)` on a 4×4 map. -/
theorem degenerate_roi_zero_output_witness :
    ((ROIAlign.deriveROI ⟨1, 1, 1, 0, true⟩ 0 0 0 0).roi_bin_grid_h = 0
      ∨ (ROIAlign.deriveROI ⟨1, 1, 1, 0, true⟩ 0 0 0 0).roi_bin_grid_w = 0)
    ∧ ROIAlign.preCalc ⟨1, 1, 1, 0, true⟩ 4 4 0 0 0 0 = []
    ∧ (ROIAlign.forward ⟨1, 1, 1, 0, true⟩ 4 4 1 (fun _ p => (p : ℚ))
        0 0 0 0 true).1 = 0
    ∧ getCell (ROIAlign.forward ⟨1, 1, 1, 0, true⟩ 4 4 1 (fun _ p => (p : ℚ))
        0 0 0 0 true) 1 0 0 0 = some 0 :=
  degenerate_roi_zero_output ⟨1, 1, 1, 0, true⟩ 4 4 1 (fun _ p => (p : ℚ))
    0 0 0 0 0 0 0 (by decide) (by decide) (by decide) (by decide)
    (Or.inl (by rw [deriveROI_height]; norm_num))
    (by decide) (by decide)
